import Mathlib

/-!
Verification development for the youtube-AIflashcards repository.

The Python sources under `src/` are shallowly embedded below:
strings become `List Char`, floats become `Rat`, dictionaries with a
fixed key set become structures, `None`-able values become `Option`,
and exceptions become `Except`/`Option` results.  Network calls are
modelled by explicit environment records (`CaptionSource`, the
page-scrape fallback value, the metadata record) whose fields hold the
outcome each call would produce; the control flow around those calls
is translated statement by statement from the source.
-/

namespace YTF

open List

/-! ### Character classes (Python regex `[0-9A-Za-z_-]` and `\s`) -/

def isIdChar (c : Char) : Bool :=
  c.isAlphanum || c == '_' || c == '-'

def isSpaceChar (c : Char) : Bool :=
  c == ' ' || c == '\t' || c == '\n' || c == '\r' || c == '\x0b' || c == '\x0c'

/-! ### `TranscriptService.extract_video_id` (src/services/transcript.py lines 36-65)

`startsWith pat s` decides whether `pat` is a prefix of `s`; `hasSub pat s`
is Python's `pat in s` (substring containment); `searchTok pat s` is
`re.search(pat + "([0-9A-Za-z_-]{11})", s)` returning the captured group
(the regex engine scans left to right and at each position requires the
literal `pat` followed by exactly eleven id characters).  `bareMatch`
is `re.match(r"^[0-9A-Za-z_-]{11}$", url)`: Python's `$` also matches
just before a single trailing newline. -/

def startsWith : List Char → List Char → Bool
  | [], _ => true
  | _ :: _, [] => false
  | p :: ps, c :: cs => p == c && startsWith ps cs

def hasSub (pat : List Char) : List Char → Bool
  | [] => pat.isEmpty
  | c :: cs => startsWith pat (c :: cs) || hasSub pat cs

def takeTok (s : List Char) : Option (List Char) :=
  if (s.take 11).length == 11 && (s.take 11).all isIdChar then some (s.take 11) else none

def tryAt : List Char → List Char → Option (List Char)
  | [], s => takeTok s
  | _ :: _, [] => none
  | p :: ps, c :: cs => if p == c then tryAt ps cs else none

def searchTok (pat : List Char) : List Char → Option (List Char)
  | [] => tryAt pat []
  | c :: cs =>
    match tryAt pat (c :: cs) with
    | some t => some t
    | none => searchTok pat cs

def bareMatch (url : List Char) : Bool :=
  (url.length == 11 && url.all isIdChar) ||
  (url.length == 12 && (url.take 11).all isIdChar && url.getLast? == some '\n')

def extract_video_id (url : List Char) : Option (List Char) :=
  match (if hasSub "youtu.be".data url then searchTok "youtu.be/".data url else none) with
  | some t => some t
  | none =>
    match (if hasSub "youtube.com".data url && hasSub "v=".data url then
            searchTok "v=".data url else none) with
    | some t => some t
    | none =>
      match (if hasSub "embed/".data url then searchTok "embed/".data url else none) with
      | some t => some t
      | none => if bareMatch url then some url else none

/-! ### Caption data and the API fallback chain
(`TranscriptService.get_transcript_from_api`, src/services/transcript.py lines 125-213)

`CaptionSource` records the outcome of each remote operation the method
can perform for one video: `fetchWithLangs prefs` is
`ytt_api.fetch(video_id, languages=prefs)`, `fetchDefault` is
`ytt_api.fetch(video_id)`, `listResult` is `ytt_api.list(video_id)`
(`none` when it throws), and `findFetch language` is
`transcript_list.find_transcript([language]).fetch()` collapsed into one
outcome (`none` when either call throws).  A track's own `fetch()` is the
track's `fetchResult`.  Every `except` in the source swallows the error
and moves on, which is what the `Option` plumbing below reproduces.
The handlers at lines 187-209 are unreachable from the fetch calls (all
exceptions are already caught by the inner bare `except` blocks), so the
reachable control flow is exactly the chain below. -/

structure CaptionSegment where
  text : List Char
  start : Rat
  duration : Rat
deriving DecidableEq

structure TranscriptData where
  segments : List CaptionSegment
  language : List Char
  is_generated : Bool
deriving DecidableEq

structure CaptionTrack where
  fetchResult : Option TranscriptData
deriving DecidableEq

structure CaptionSource where
  fetchWithLangs : List (List Char) → Option TranscriptData
  fetchDefault : Option TranscriptData
  listResult : Option (List CaptionTrack)
  findFetch : List Char → Option TranscriptData

def firstSuccess : List CaptionTrack → Option TranscriptData
  | [] => none
  | t :: ts =>
    match t.fetchResult with
    | some f => some ⟨f.segments, f.language, f.is_generated⟩
    | none => firstSuccess ts

def get_transcript_from_api (src : CaptionSource) (language : List Char) :
    Option TranscriptData :=
  match src.fetchWithLangs [language, "en".data] with
  | some f => some ⟨f.segments, f.language, f.is_generated⟩
  | none =>
    match src.fetchDefault with
    | some f => some ⟨f.segments, f.language, f.is_generated⟩
    | none =>
      match src.listResult with
      | none => none
      | some tracks =>
        match src.findFetch language with
        | some f => some ⟨f.segments, f.language, f.is_generated⟩
        | none => firstSuccess tracks

/-! ### `TranscriptService.get_transcript` (src/services/transcript.py lines 277-347) -/

structure VideoMetadata where
  video_id : List Char
  video_title : List Char
  video_url : List Char
  channel_name : Option (List Char)
  description : Option (List Char)
deriving DecidableEq

inductive TranscriptError where
  | invalidUrl
  | noCaptions
deriving DecidableEq

/-- Python `sep.join(xs)`. -/
def pyJoin (sep : List Char) : List (List Char) → List Char
  | [] => []
  | [x] => x
  | x :: xs => x ++ sep ++ pyJoin sep xs

/-- The duration loop of `get_transcript` (lines 321-329). -/
def totalDuration (segments : List CaptionSegment) : Rat :=
  segments.foldl
    (fun acc s => if s.start + s.duration > acc then s.start + s.duration else acc) 0

/-- `len(full_text.split())`: number of maximal nonempty runs of
non-whitespace characters. -/
def wordCount (s : List Char) : Nat :=
  (s.foldl
    (fun (st : Nat × Bool) c =>
      if isSpaceChar c then (st.1, false)
      else if st.2 then st else (st.1 + 1, true))
    (0, false)).1

structure TranscriptResult where
  video_id : List Char
  video_title : List Char
  video_url : List Char
  channel_name : Option (List Char)
  description : Option (List Char)
  language : List Char
  is_generated : Bool
  segments : List CaptionSegment
  full_text : List Char
  duration : Rat
  word_count : Nat
deriving DecidableEq

/-- `get_transcript(video_url, language, preserve_formatting)`.
`src` models the transcript API for the requested video, `bsFallback`
the outcome of `get_transcript_with_beautifulsoup_fallback` (strategy 5),
and `meta` the outcome of `get_video_metadata` (which never fails hard). -/
def get_transcript (src : CaptionSource) (bsFallback : Option TranscriptData)
    (meta : VideoMetadata) (video_url : List Char) (language : List Char)
    (preserve_formatting : Bool) : Except TranscriptError TranscriptResult :=
  match extract_video_id video_url with
  | none => .error .invalidUrl
  | some video_id =>
    let transcript_data :=
      match get_transcript_from_api src language with
      | some d => some d
      | none => bsFallback
    match transcript_data with
    | none => .error .noCaptions
    | some td =>
      let segments := td.segments
      let full_text :=
        if preserve_formatting then pyJoin "\n".data (segments.map (fun s => s.text))
        else pyJoin " ".data (segments.map (fun s => s.text))
      .ok
        { video_id := video_id
          video_title := meta.video_title
          video_url := meta.video_url
          channel_name := meta.channel_name
          description := meta.description
          language := td.language
          is_generated := td.is_generated
          segments := segments
          full_text := full_text
          duration := totalDuration segments
          word_count := wordCount full_text }

/-! ### `TranscriptService.clean_transcript` (src/services/transcript.py lines 349-365)

The source applies, in this order:
`re.sub(r"\s+", " ", text)`, `re.sub(r"\[.*?\]", "", text)`,
`re.sub(r"\(.*?\)", "", text)`, `text.replace("\n", " ")`, `text.strip()`.
`collapseWs` replaces each maximal whitespace run with one space.
`removeDelim o c` is the non-greedy bracket substitution: the regex
engine scans left to right; at an opening character it looks for the
first closing character with no intervening newline (`.` does not match
newline) and deletes the whole span, resuming after it; an opening
character with no such closer is kept and scanning resumes after it. -/

def collapseWs : List Char → List Char
  | [] => []
  | c :: cs =>
    if isSpaceChar c then ' ' :: collapseWs (cs.dropWhile isSpaceChar)
    else c :: collapseWs cs
termination_by s => s.length
decreasing_by
  · exact Nat.lt_succ_of_le (List.dropWhile_sublist _).length_le
  · exact Nat.lt_succ_self _

def findClose (closeC : Char) : List Char → Option (List Char)
  | [] => none
  | c :: cs =>
    if c = closeC then some cs
    else if c = '\n' then none
    else findClose closeC cs

def removeDelim (o c : Char) : List Char → List Char
  | [] => []
  | ch :: cs =>
    if ch = o then
      match h : findClose c cs with
      | some rest => removeDelim o c rest
      | none => ch :: removeDelim o c cs
    else ch :: removeDelim o c cs
termination_by s => s.length
decreasing_by
  · have key : ∀ (cc : Char) (cs rest : List Char), findClose cc cs = some rest →
        rest.length < cs.length := by
      intro cc cs
      induction cs with
      | nil => intro rest h; simp [findClose] at h
      | cons x xs ih =>
        intro rest h
        simp only [findClose] at h
        split at h
        · cases h; simp
        · split at h
          · cases h
          · exact Nat.lt_trans (ih _ h) (Nat.lt_succ_self _)
    exact Nat.lt_trans (key _ _ _ h) (Nat.lt_succ_self _)
  · exact Nat.lt_succ_self _
  · exact Nat.lt_succ_self _

def replaceNewlines (s : List Char) : List Char :=
  s.map (fun c => if c = '\n' then ' ' else c)

/-- Python `str.strip()`. -/
def trim (s : List Char) : List Char :=
  ((s.dropWhile isSpaceChar).reverse.dropWhile isSpaceChar).reverse

def clean_transcript (text : List Char) : List Char :=
  trim (replaceNewlines (removeDelim '(' ')' (removeDelim '[' ']' (collapseWs text))))

/-- `hasPair o c s` holds when `s` still contains a complete annotation:
an occurrence of the opening character followed (anywhere later) by the
closing character. -/
def hasPair (o c : Char) : List Char → Bool
  | [] => false
  | x :: xs => (decide (x = o) && decide (c ∈ xs)) || hasPair o c xs

/-! ### `AIProcessor._validate_flashcards` (src/services/ai_processor.py lines 170-214) -/

structure RawFlashcard where
  question : Option (List Char)
  answer : Option (List Char)
  difficulty : Option (List Char)
  topic : Option (List Char)
  explanation : Option (List Char)
deriving DecidableEq

structure ValidatedFlashcard where
  question : List Char
  answer : List Char
  difficulty : List Char
  topic : List Char
  explanation : Option (List Char)
deriving DecidableEq

/-- Lines 193-198: `card.get('difficulty', 'medium').lower()` and the
membership check against `['easy', 'medium', 'hard']`. -/
def normalizeDifficulty (requested : List Char) (raw : Option (List Char)) : List Char :=
  let d := (raw.getD "medium".data).map Char.toLower
  if d = "easy".data ∨ d = "medium".data ∨ d = "hard".data then d
  else if requested = "mixed".data then "medium".data
  else requested

/-- The body of the validation loop for one record: `None` means the
record is dropped (`continue`). -/
def validateCard (requested : List Char) (card : RawFlashcard) : Option ValidatedFlashcard :=
  match card.question, card.answer with
  | some q, some a =>
    if q = [] ∨ a = [] then none
    else
      let difficulty := normalizeDifficulty requested card.difficulty
      let vq := trim q
      let va := trim a
      if vq.length < 10 ∨ va.length < 3 then none
      else some
        { question := vq
          answer := va
          difficulty := difficulty
          topic := card.topic.getD "General".data
          explanation := card.explanation }
  | _, _ => none

def validate_flashcards (requested : List Char) : List RawFlashcard → List ValidatedFlashcard
  | [] => []
  | c :: cs =>
    match validateCard requested c with
    | some v => v :: validate_flashcards requested cs
    | none => validate_flashcards requested cs

/-! ### `AIProcessor._create_user_prompt` (src/services/ai_processor.py lines 125-168) -/

def natStr (n : Nat) : List Char := (toString n).data

/-- Everything of the prompt f-string before the `{transcript}` slot.
Python's `video_title or 'Not provided'` and the conditional
`Subject Focus` line use truthiness: `None` and the empty string both
fall back. -/
def promptHead (num_cards : Nat) (difficulty_level : List Char)
    (subject_focus : Option (List Char)) (video_title : Option (List Char)) : List Char :=
  "Create ".data ++ natStr num_cards
    ++ " flashcards from the following video transcript.\n\nVideo Title: ".data
    ++ (match video_title with
        | some t => if t.isEmpty then "Not provided".data else t
        | none => "Not provided".data)
    ++ "\nDifficulty Level: ".data ++ difficulty_level ++ "\n".data
    ++ (match subject_focus with
        | some s => if s.isEmpty then [] else "Subject Focus: ".data ++ s
        | none => [])
    ++ "\n\nTranscript:\n".data

/-- Everything of the prompt after the `{transcript}` slot (the second
half of the f-string plus the `+=` additions at lines 152-166). -/
def promptTail (num_cards : Nat) (difficulty_level : List Char)
    (subject_focus : Option (List Char)) : List Char :=
  "\n\nRequirements:\n1. Generate exactly ".data ++ natStr num_cards
    ++ " flashcards\n2. ".data
    ++ (if difficulty_level = "mixed".data then
          "Include a mix of easy, medium, and hard difficulty questions".data
        else "All flashcards should be ".data ++ difficulty_level ++ " difficulty".data)
    ++ (match subject_focus with
        | some s =>
          if s.isEmpty then []
          else "\n3. Focus particularly on topics related to: ".data ++ s
        | none => [])
    ++ "\n4. Ensure questions test understanding, not just memorization\n5. Make answers clear and self-contained\n6. Include topic categorization for each flashcard\n7. Add brief explanations where helpful for understanding\n\nReturn the flashcards as valid JSON.".data

def create_user_prompt (transcript : List Char) (num_cards : Nat)
    (difficulty_level : List Char) (subject_focus : Option (List Char))
    (video_title : Option (List Char)) : List Char :=
  promptHead num_cards difficulty_level subject_focus video_title
    ++ (if transcript.length > 8000 then transcript.take 8000 ++ "...".data else transcript)
    ++ promptTail num_cards difficulty_level subject_focus

/-! ### `models.Flashcard` and the endpoint construction loop
(src/models.py lines 47-54, src/main.py lines 186-195)

Pydantic enforces `min_length=10` on `question`, `min_length=5` on
`answer`, and the `Literal["easy", "medium", "hard"]` type on
`difficulty`; a violation raises `ValidationError`. -/

structure Flashcard where
  question : List Char
  answer : List Char
  difficulty : List Char
  topic : List Char
  explanation : Option (List Char)
deriving DecidableEq

inductive BuildError where
  | validationError
deriving DecidableEq

def mkFlashcard (question answer difficulty topic : List Char)
    (explanation : Option (List Char)) : Except BuildError Flashcard :=
  if 10 ≤ question.length ∧ 5 ≤ answer.length ∧
      (difficulty = "easy".data ∨ difficulty = "medium".data ∨ difficulty = "hard".data)
  then .ok ⟨question, answer, difficulty, topic, explanation⟩
  else .error .validationError

/-- The `for card_data in flashcards_data` loop of `generate_flashcards`
in src/main.py: the first pydantic failure aborts the request. -/
def buildFlashcards : List ValidatedFlashcard → Except BuildError (List Flashcard)
  | [] => .ok []
  | c :: cs =>
    match mkFlashcard c.question c.answer c.difficulty c.topic c.explanation with
    | .error e => .error e
    | .ok f =>
      match buildFlashcards cs with
      | .error e => .error e
      | .ok fs => .ok (f :: fs)

/-! ### Concrete data used by witnesses and counterexamples -/

def demoSeg : CaptionSegment := ⟨"hello world".data, 0, 2⟩

def demoData : TranscriptData := ⟨[demoSeg], "de".data, true⟩

def demoTrackBad : CaptionTrack := ⟨none⟩

def demoTrackB : CaptionTrack := ⟨some demoData⟩

/-- A source where strategies 1-3 fail and enumeration holds one bad
track followed by a good one. -/
def demoSrcEnum : CaptionSource :=
  { fetchWithLangs := fun _ => none
    fetchDefault := none
    listResult := some [demoTrackBad, demoTrackB]
    findFetch := fun _ => none }

/-- A source with no captions at all. -/
def demoSrcEmpty : CaptionSource :=
  { fetchWithLangs := fun _ => none
    fetchDefault := none
    listResult := some [demoTrackBad]
    findFetch := fun _ => none }

/-- A source that answers strategy 1 only when given exactly the
preference list `[lang, "en"]` that the code passes. -/
def demoSrcTwoLangs : CaptionSource :=
  { fetchWithLangs := fun prefs => if prefs = ["fr".data, "en".data] then some demoData else none
    fetchDefault := none
    listResult := none
    findFetch := fun _ => none }

/-- A source holding captions only under the four-element preference
list that the specification describes for strategy 1. -/
def demoSrcFourLangs : CaptionSource :=
  { fetchWithLangs := fun prefs =>
      if prefs = ["fr".data, "en".data, "en-US".data, "en-GB".data] then some demoData else none
    fetchDefault := none
    listResult := none
    findFetch := fun _ => none }

def demoMeta : VideoMetadata :=
  { video_id := "abcdefghijk".data
    video_title := "Demo".data
    video_url := "https://www.youtube.com/watch?v=abcdefghijk".data
    channel_name := none
    description := none }

/-- The result `get_transcript demoSrcEnum none demoMeta "abcdefghijk"
"en" false` evaluates to. -/
def demoResult : TranscriptResult :=
  { video_id := "abcdefghijk".data
    video_title := demoMeta.video_title
    video_url := demoMeta.video_url
    channel_name := none
    description := none
    language := demoData.language
    is_generated := demoData.is_generated
    segments := [demoSeg]
    full_text := "hello world".data
    duration := 2
    word_count := 2 }

/-! ## Helper lemmas -/

theorem firstSuccess_append (pre : List CaptionTrack) (t : CaptionTrack)
    (post : List CaptionTrack) (f : TranscriptData)
    (hpre : ∀ t' ∈ pre, t'.fetchResult = none) (ht : t.fetchResult = some f) :
    firstSuccess (pre ++ t :: post) = some ⟨f.segments, f.language, f.is_generated⟩ := by
  induction pre with
  | nil => simp [firstSuccess, ht]
  | cons p ps ih =>
    have hp : p.fetchResult = none := hpre p (List.mem_cons_self _ _)
    simp only [List.cons_append, firstSuccess, hp]
    exact ih fun t' h => hpre t' (List.mem_cons_of_mem _ h)

theorem firstSuccess_none (ts : List CaptionTrack)
    (h : ∀ t ∈ ts, t.fetchResult = none) : firstSuccess ts = none := by
  induction ts with
  | nil => rfl
  | cons p ps ih =>
    simp only [firstSuccess, h p (List.mem_cons_self _ _)]
    exact ih fun t h' => h t (List.mem_cons_of_mem _ h')

/-! ## Claim theorems -/

/-- C1: when the two direct-fetch strategies fail and the
enumerate-then-match strategy finds no track in the requested language,
`get_transcript_from_api` returns the data of the first enumerated track
whose own fetch succeeds — every earlier track whose fetch throws is
skipped without aborting the enumeration — and the result's
`is_generated` flag comes from that returned track. -/
theorem c1_fallback_enumeration (src : CaptionSource) (lang : List Char)
    (pre post : List CaptionTrack) (t : CaptionTrack) (f : TranscriptData)
    (h1 : src.fetchWithLangs [lang, "en".data] = none)
    (h2 : src.fetchDefault = none)
    (h3 : src.listResult = some (pre ++ t :: post))
    (h4 : src.findFetch lang = none)
    (h5 : ∀ t' ∈ pre, t'.fetchResult = none)
    (h6 : t.fetchResult = some f) :
    get_transcript_from_api src lang = some ⟨f.segments, f.language, f.is_generated⟩ := by
  unfold get_transcript_from_api
  simp only [h1, h2, h3, h4]
  exact firstSuccess_append pre t post f h5 h6

theorem c1_fallback_enumeration_witness :
    get_transcript_from_api demoSrcEnum "en".data =
      some ⟨demoData.segments, demoData.language, demoData.is_generated⟩ :=
  c1_fallback_enumeration demoSrcEnum "en".data [demoTrackBad] [] demoTrackB demoData
    rfl rfl rfl rfl (by decide) rfl

/-- C2: when every caption-acquisition strategy — strategy 1
(direct fetch with language preferences), strategy 2 (direct fetch
without), strategies 3 and 4 (enumerate then match / first available),
and strategy 5 (the page-scrape fallback) — yields nothing,
`get_transcript` fails with the no-captions error instead of returning
any (empty or partial) transcript result. -/
theorem c2_all_strategies_fail (src : CaptionSource) (bs : Option TranscriptData)
    (meta : VideoMetadata) (url lang : List Char) (fmt : Bool) (vid : List Char)
    (h1 : src.fetchWithLangs [lang, "en".data] = none)
    (h2 : src.fetchDefault = none)
    (h3 : ∀ ts, src.listResult = some ts →
      src.findFetch lang = none ∧ ∀ t ∈ ts, t.fetchResult = none)
    (h4 : bs = none)
    (h5 : extract_video_id url = some vid) :
    get_transcript src bs meta url lang fmt = Except.error TranscriptError.noCaptions := by
  have hapi : get_transcript_from_api src lang = none := by
    unfold get_transcript_from_api
    simp only [h1, h2]
    cases hls : src.listResult with
    | none => rfl
    | some ts =>
      obtain ⟨hf, hall⟩ := h3 ts hls
      simp only [hf]
      exact firstSuccess_none ts hall
  unfold get_transcript
  simp only [h5, hapi, h4]

theorem c2_all_strategies_fail_witness :
    get_transcript demoSrcEmpty none demoMeta "abcdefghijk".data "en".data false =
      Except.error TranscriptError.noCaptions :=
  c2_all_strategies_fail demoSrcEmpty none demoMeta "abcdefghijk".data "en".data false
    "abcdefghijk".data rfl rfl
    (by
      intro ts hts
      have h' : some [demoTrackBad] = some ts := hts
      cases h'
      exact ⟨rfl, by decide⟩)
    rfl (by decide)

/-- C8 (amended): strategy 1 requests captions with the ranked
preference list `[requested language, "en"]` — not the four-element
list `[requested, "en", "en-US", "en-GB"]` stated in the spec — and
succeeds whenever the source has a track for that two-element list. -/
theorem c8_direct_fetch_languages (src : CaptionSource) (lang : List Char)
    (f : TranscriptData)
    (h : src.fetchWithLangs [lang, "en".data] = some f) :
    get_transcript_from_api src lang = some ⟨f.segments, f.language, f.is_generated⟩ := by
  unfold get_transcript_from_api
  simp only [h]

theorem c8_direct_fetch_languages_witness :
    get_transcript_from_api demoSrcTwoLangs "fr".data =
      some ⟨demoData.segments, demoData.language, demoData.is_generated⟩ :=
  c8_direct_fetch_languages demoSrcTwoLangs "fr".data demoData (by decide)

/-- C8 counterexample: a source that has captions exactly under the
spec's claimed preference list `[requested, "en", "en-US", "en-GB"]`
yields nothing from `get_transcript_from_api`, because the code never
requests that list (it only requests `[requested, "en"]`). -/
theorem c8_counterexample :
    demoSrcFourLangs.fetchWithLangs
        ["fr".data, "en".data, "en-US".data, "en-GB".data] = some demoData
    ∧ get_transcript_from_api demoSrcFourLangs "fr".data = none :=
  ⟨by decide, by decide⟩

theorem trim_nil : trim [] = [] := rfl

theorem ne_nil_of_trim_ne_nil {q : List Char} (h : trim q ≠ []) : q ≠ [] := by
  intro hq; exact h (hq ▸ trim_nil)

theorem validate_flashcards_append (requested : List Char) (xs ys : List RawFlashcard) :
    validate_flashcards requested (xs ++ ys) =
      validate_flashcards requested xs ++ validate_flashcards requested ys := by
  induction xs with
  | nil => rfl
  | cons c cs ih =>
    simp only [List.cons_append, validate_flashcards]
    cases validateCard requested c <;> simp [ih]

/-- C4: the validation pass drops a record whose trimmed question has
length 9 and keeps one of length 10; drops a record whose trimmed
answer has length 2 and keeps one of length 3; drops a record whose
question or answer is missing or empty; and surviving records are
emitted in original order (a kept record stays in place between its
neighbours, a dropped record leaves the rest untouched). -/
theorem c4_validation_boundaries (requested : List Char) :
    (∀ card q, card.question = some q → (trim q).length = 9 →
      validateCard requested card = none)
    ∧ (∀ card q a, card.question = some q → card.answer = some a →
        (trim q).length = 10 → 3 ≤ (trim a).length →
        validateCard requested card = some
          { question := trim q
            answer := trim a
            difficulty := normalizeDifficulty requested card.difficulty
            topic := card.topic.getD "General".data
            explanation := card.explanation })
    ∧ (∀ card a, card.answer = some a → (trim a).length = 2 →
        validateCard requested card = none)
    ∧ (∀ card q a, card.question = some q → card.answer = some a →
        10 ≤ (trim q).length → (trim a).length = 3 →
        validateCard requested card = some
          { question := trim q
            answer := trim a
            difficulty := normalizeDifficulty requested card.difficulty
            topic := card.topic.getD "General".data
            explanation := card.explanation })
    ∧ (∀ card, card.question = none ∨ card.question = some [] ∨
        card.answer = none ∨ card.answer = some [] →
        validateCard requested card = none)
    ∧ (∀ pre post card v, validateCard requested card = some v →
        validate_flashcards requested (pre ++ card :: post) =
          validate_flashcards requested pre ++ v :: validate_flashcards requested post)
    ∧ (∀ pre post card, validateCard requested card = none →
        validate_flashcards requested (pre ++ card :: post) =
          validate_flashcards requested pre ++ validate_flashcards requested post) := by
  refine ⟨?_, ?_, ?_, ?_, ?_, ?_, ?_⟩
  · intro card q hq h9
    cases hA : card.answer with
    | none => simp [validateCard, hq, hA]
    | some a =>
      simp only [validateCard, hq, hA]
      by_cases ha0 : a = []
      · rw [if_pos (Or.inr ha0)]
      · rw [if_neg (by
          rintro (h | h)
          · subst h; simp [trim_nil] at h9
          · exact ha0 h)]
        rw [if_pos (Or.inl (by omega))]
  · intro card q a hq hA h10 h3
    simp only [validateCard, hq, hA]
    rw [if_neg (by
      rintro (h | h)
      · subst h; simp [trim_nil] at h10
      · subst h; simp [trim_nil] at h3)]
    rw [if_neg (by rintro (h | h) <;> omega)]
  · intro card a hA h2
    cases hQ : card.question with
    | none => simp [validateCard, hQ, hA]
    | some q =>
      simp only [validateCard, hQ, hA]
      by_cases hq0 : q = []
      · rw [if_pos (Or.inl hq0)]
      · by_cases ha0 : a = []
        · rw [if_pos (Or.inr ha0)]
        · rw [if_neg (by rintro (h | h) <;> [exact hq0 h; exact ha0 h])]
          rw [if_pos (Or.inr (by omega))]
  · intro card q a hq hA h10 h3
    simp only [validateCard, hq, hA]
    rw [if_neg (by
      rintro (h | h)
      · subst h; simp [trim_nil] at h10
      · subst h; simp [trim_nil] at h3)]
    rw [if_neg (by rintro (h | h) <;> omega)]
  · intro card hcase
    rcases hcase with h | h | h | h
    · cases hA : card.answer <;> simp [validateCard, h, hA]
    · cases hA : card.answer with
      | none => simp [validateCard, h, hA]
      | some a => simp only [validateCard, h, hA]; rw [if_pos (Or.inl trivial)]
    · cases hQ : card.question <;> simp [validateCard, hQ, h]
    · cases hQ : card.question with
      | none => simp [validateCard, hQ, h]
      | some q => simp only [validateCard, hQ, h]; rw [if_pos (Or.inr trivial)]
  · intro pre post card v hv
    rw [validate_flashcards_append]
    simp only [validate_flashcards, hv]
  · intro pre post card hv
    rw [validate_flashcards_append]
    simp only [validate_flashcards, hv]

theorem c4_validation_boundaries_witness :
    validateCard "mixed".data ⟨some "123456789".data, some "abc".data, none, none, none⟩ = none
    ∧ validateCard "mixed".data ⟨some "1234567890".data, some "abc".data, none, none, none⟩ =
        some ⟨"1234567890".data, "abc".data, "medium".data, "General".data, none⟩
    ∧ validateCard "mixed".data ⟨some "1234567890".data, some "ab".data, none, none, none⟩ = none
    ∧ validateCard "mixed".data ⟨none, some "abc".data, none, none, none⟩ = none
    ∧ validate_flashcards "mixed".data
        [⟨some "123456789".data, some "abc".data, none, none, none⟩,
         ⟨some "1234567890".data, some "abc".data, none, none, none⟩] =
        [⟨"1234567890".data, "abc".data, "medium".data, "General".data, none⟩] := by
  have T := c4_validation_boundaries "mixed".data
  obtain ⟨p1, p2, p3, p4, p5, p6, p7⟩ := T
  refine ⟨?_, ?_, ?_, ?_, ?_⟩
  · exact p1 _ "123456789".data rfl (by decide)
  · exact (p2 _ "1234567890".data "abc".data rfl rfl (by decide) (by decide)).trans (by decide)
  · exact p3 _ "ab".data rfl (by decide)
  · exact p5 _ (Or.inl rfl)
  · exact (p7 [] [⟨some "1234567890".data, some "abc".data, none, none, none⟩]
      ⟨some "123456789".data, some "abc".data, none, none, none⟩
      (p1 _ "123456789".data rfl (by decide))).trans (by decide)

/-- C5: a raw record's difficulty is lowercased; when the lowercased
value is not one of easy/medium/hard it is replaced by "medium" if the
caller requested "mixed" and by the requested difficulty verbatim
otherwise, and the validated record carries exactly this normalized
difficulty. -/
theorem c5_difficulty_normalization (requested : List Char) (card : RawFlashcard)
    (v : ValidatedFlashcard) (raw : List Char)
    (hreq : requested = "easy".data ∨ requested = "medium".data ∨
      requested = "hard".data ∨ requested = "mixed".data) :
    (validateCard requested card = some v →
      v.difficulty = normalizeDifficulty requested card.difficulty)
    ∧ ((raw.map Char.toLower = "easy".data ∨ raw.map Char.toLower = "medium".data ∨
        raw.map Char.toLower = "hard".data) →
      normalizeDifficulty requested (some raw) = raw.map Char.toLower)
    ∧ (¬(raw.map Char.toLower = "easy".data ∨ raw.map Char.toLower = "medium".data ∨
        raw.map Char.toLower = "hard".data) →
      normalizeDifficulty requested (some raw) =
        if requested = "mixed".data then "medium".data else requested) := by
  refine ⟨?_, ?_, ?_⟩
  · intro h
    simp only [validateCard] at h
    split at h
    · split at h
      · exact absurd h (by simp)
      · split at h
        · exact absurd h (by simp)
        · cases h; rfl
    · exact absurd h (by simp)
  · intro hl
    simp only [normalizeDifficulty, Option.getD]
    rw [if_pos hl]
  · intro hl
    simp only [normalizeDifficulty, Option.getD]
    rw [if_neg hl]

theorem c5_difficulty_normalization_witness :
    normalizeDifficulty "hard".data (some "SUPER".data) = "hard".data
    ∧ normalizeDifficulty "mixed".data (some "SUPER".data) = "medium".data := by
  constructor
  · exact ((c5_difficulty_normalization "hard".data ⟨none, none, none, none, none⟩
      ⟨[], [], [], [], none⟩ "SUPER".data (by decide)).2.2 (by decide)).trans (by decide)
  · exact ((c5_difficulty_normalization "mixed".data ⟨none, none, none, none, none⟩
      ⟨[], [], [], [], none⟩ "SUPER".data (by decide)).2.2 (by decide)).trans (by decide)

/-- C6: the user prompt embeds the transcript truncated to its first
8000 characters plus an ellipsis marker when it is strictly longer than
8000 characters, and embeds it unchanged (no marker) otherwise. -/
theorem c6_transcript_truncation (transcript : List Char) (n : Nat)
    (dl : List Char) (subj titleO : Option (List Char)) :
    (8000 < transcript.length →
      create_user_prompt transcript n dl subj titleO =
        promptHead n dl subj titleO ++ (transcript.take 8000 ++ "...".data)
          ++ promptTail n dl subj
      ∧ (transcript.take 8000).length = 8000)
    ∧ (transcript.length ≤ 8000 →
      create_user_prompt transcript n dl subj titleO =
        promptHead n dl subj titleO ++ transcript ++ promptTail n dl subj) := by
  constructor
  · intro h
    constructor
    · unfold create_user_prompt
      rw [if_pos h]
    · rw [List.length_take]; omega
  · intro h
    unfold create_user_prompt
    rw [if_neg (by omega)]

theorem c6_transcript_truncation_witness :
    (create_user_prompt (List.replicate 8001 'a') 5 "mixed".data none none =
      promptHead 5 "mixed".data none none
        ++ ((List.replicate 8001 'a').take 8000 ++ "...".data)
        ++ promptTail 5 "mixed".data none
      ∧ ((List.replicate 8001 'a').take 8000).length = 8000)
    ∧ create_user_prompt "short".data 5 "mixed".data none none =
        promptHead 5 "mixed".data none none ++ "short".data ++ promptTail 5 "mixed".data none :=
  ⟨(c6_transcript_truncation (List.replicate 8001 'a') 5 "mixed".data none none).1
      (by simp only [List.length_replicate]; omega),
   (c6_transcript_truncation "short".data 5 "mixed".data none none).2 (by decide)⟩

/-- C10: a raw flashcard whose trimmed answer has length 3 survives the
validation pass (threshold 3) but the pydantic `Flashcard` model
requires answers of length at least 5, so the endpoint's construction
loop fails with a validation error instead of returning the card. -/
theorem c10_threshold_mismatch :
    validate_flashcards "mixed".data
        [⟨some "What is the capital of France?".data, some "abc".data,
          some "easy".data, none, none⟩] =
      [⟨"What is the capital of France?".data, "abc".data, "easy".data, "General".data, none⟩]
    ∧ (trim "abc".data).length = 3
    ∧ buildFlashcards
        (validate_flashcards "mixed".data
          [⟨some "What is the capital of France?".data, some "abc".data,
            some "easy".data, none, none⟩]) =
        Except.error BuildError.validationError := by
  refine ⟨by decide, by decide, rfl⟩

theorem durFold_init_le (l : List CaptionSegment) : ∀ (acc : Rat),
    acc ≤ l.foldl
      (fun a s => if s.start + s.duration > a then s.start + s.duration else a) acc := by
  induction l with
  | nil => intro acc; exact le_refl _
  | cons x xs ih =>
    intro acc
    simp only [List.foldl]
    by_cases h : x.start + x.duration > acc
    · rw [if_pos h]; exact le_trans (le_of_lt h) (ih _)
    · rw [if_neg h]; exact ih _

theorem durFold_mem_le (l : List CaptionSegment) : ∀ (acc : Rat), ∀ s ∈ l,
    s.start + s.duration ≤ l.foldl
      (fun a s => if s.start + s.duration > a then s.start + s.duration else a) acc := by
  induction l with
  | nil => intro acc s hs; cases hs
  | cons x xs ih =>
    intro acc s hs
    rcases List.mem_cons.mp hs with rfl | hs'
    · simp only [List.foldl]
      by_cases h : s.start + s.duration > acc
      · rw [if_pos h]; exact durFold_init_le xs _
      · rw [if_neg h]; exact le_trans (not_lt.mp h) (durFold_init_le xs _)
    · simp only [List.foldl]
      exact ih _ s hs'

theorem durFold_attained (l : List CaptionSegment) : ∀ (acc : Rat),
    l.foldl (fun a s => if s.start + s.duration > a then s.start + s.duration else a) acc = acc
    ∨ ∃ s ∈ l,
        l.foldl (fun a s => if s.start + s.duration > a then s.start + s.duration else a) acc =
          s.start + s.duration := by
  induction l with
  | nil => intro acc; exact Or.inl rfl
  | cons x xs ih =>
    intro acc
    simp only [List.foldl]
    by_cases h : x.start + x.duration > acc
    · rw [if_pos h]
      rcases ih (x.start + x.duration) with h' | ⟨s, hs, h'⟩
      · exact Or.inr ⟨x, List.mem_cons_self _ _, h'⟩
      · exact Or.inr ⟨s, List.mem_cons_of_mem _ hs, h'⟩
    · rw [if_neg h]
      rcases ih acc with h' | ⟨s, hs, h'⟩
      · exact Or.inl h'
      · exact Or.inr ⟨s, List.mem_cons_of_mem _ hs, h'⟩

/-- C7: every successful `get_transcript` result satisfies the
invariants: `full_text` is exactly the segment texts joined with `"\n"`
when formatting is preserved and `" "` otherwise, in order and with no
other transformation; `duration` is `0` for an empty segment list and
otherwise the maximum of `start + duration` over the segments (stated
as an upper bound that is attained, under the physical assumption that
segment timestamps are nonnegative). -/
theorem c7_result_invariants (src : CaptionSource) (bs : Option TranscriptData)
    (meta : VideoMetadata) (url lang : List Char) (fmt : Bool) (res : TranscriptResult)
    (h : get_transcript src bs meta url lang fmt = Except.ok res) :
    res.full_text =
      pyJoin (if fmt then "\n".data else " ".data) (res.segments.map (fun s => s.text))
    ∧ (res.segments = [] → res.duration = 0)
    ∧ (∀ s ∈ res.segments, s.start + s.duration ≤ res.duration)
    ∧ ((∀ s ∈ res.segments, 0 ≤ s.start ∧ 0 ≤ s.duration) → res.segments ≠ [] →
        ∃ s ∈ res.segments, res.duration = s.start + s.duration) := by
  simp only [get_transcript] at h
  split at h
  · cases h
  · split at h
    · cases h
    · rename_i td heq
      injection h with h'
      subst h'
      refine ⟨?_, ?_, ?_, ?_⟩
      · cases fmt <;> rfl
      · intro h0
        simp only at h0 ⊢
        rw [h0]
        rfl
      · intro s hs
        simp only at hs ⊢
        exact durFold_mem_le td.segments 0 s hs
      · intro hnn hne
        simp only at hnn hne ⊢
        rcases durFold_attained td.segments 0 with h0 | ⟨s, hs, hatt⟩
        · obtain ⟨s0, hs0⟩ := List.exists_mem_of_ne_nil _ hne
          refine ⟨s0, hs0, le_antisymm ?_ ?_⟩
          · rw [show totalDuration td.segments = (0 : Rat) from h0]
            have := (hnn s0 hs0).1
            have := (hnn s0 hs0).2
            linarith
          · exact durFold_mem_le td.segments 0 s0 hs0
        · exact ⟨s, hs, hatt⟩

theorem c7_result_invariants_witness :
    demoResult.full_text =
      pyJoin " ".data (demoResult.segments.map (fun s => s.text))
    ∧ (∀ s ∈ demoResult.segments, s.start + s.duration ≤ demoResult.duration)
    ∧ (∃ s ∈ demoResult.segments, demoResult.duration = s.start + s.duration) := by
  have happ : get_transcript demoSrcEnum none demoMeta "abcdefghijk".data "en".data false =
      Except.ok demoResult := by
    have h1 : extract_video_id "abcdefghijk".data = some "abcdefghijk".data := by decide
    have h2 : get_transcript_from_api demoSrcEnum "en".data =
        some ⟨[demoSeg], "de".data, true⟩ := rfl
    simp only [get_transcript, h1, h2]
    have h3 : totalDuration [demoSeg] = 2 := by
      norm_num [totalDuration, List.foldl, demoSeg]
    rw [h3]
    rfl
  have T := c7_result_invariants demoSrcEnum none demoMeta "abcdefghijk".data "en".data
    false demoResult happ
  exact ⟨T.1, T.2.2.1, T.2.2.2 (by decide) (by decide)⟩

theorem takeTok_of_valid {id : List Char} (h1 : id.length = 11)
    (h2 : id.all isIdChar = true) : takeTok id = some id := by
  unfold takeTok
  rw [List.take_of_length_le (by omega)]
  rw [if_pos (by simp [h1, h2])]

theorem tryAt_append_self (pat rest : List Char) : tryAt pat (pat ++ rest) = takeTok rest := by
  induction pat with
  | nil => rfl
  | cons p ps ih =>
    simp only [List.cons_append, tryAt, beq_self_eq_true, if_true]
    exact ih

theorem searchTok_hit {pat s t : List Char} (h : tryAt pat s = some t) :
    searchTok pat s = some t := by
  cases s with
  | nil => simpa [searchTok] using h
  | cons c cs => simp only [searchTok, h]

theorem startsWith_all {P : Char → Bool} :
    ∀ {pat s : List Char}, startsWith pat s = true → s.all P = true → pat.all P = true := by
  intro pat
  induction pat with
  | nil => intro s _ _; rfl
  | cons p ps ih =>
    intro s hs hall
    cases s with
    | nil => simp [startsWith] at hs
    | cons c cs =>
      simp only [startsWith, Bool.and_eq_true, beq_iff_eq] at hs
      obtain ⟨rfl, h2⟩ := hs
      simp only [List.all_cons, Bool.and_eq_true] at hall ⊢
      exact ⟨hall.1, ih h2 hall.2⟩

theorem hasSub_false_of_all {pat : List Char} (hbad : pat.all isIdChar = false) :
    ∀ {s : List Char}, s.all isIdChar = true → hasSub pat s = false := by
  intro s
  induction s with
  | nil =>
    intro _
    cases pat with
    | nil => simp at hbad
    | cons p ps => rfl
  | cons c cs ih =>
    intro hs
    have hcs : cs.all isIdChar = true := by
      simp only [List.all_cons, Bool.and_eq_true] at hs; exact hs.2
    have h1 : startsWith pat (c :: cs) = false := by
      cases hsw : startsWith pat (c :: cs) with
      | false => rfl
      | true => exact absurd (startsWith_all hsw hs) (by simp [hbad])
    simp [hasSub, h1, ih hcs]

theorem tryAt_none_of_startsWith_false :
    ∀ {pat s : List Char}, startsWith pat s = false → tryAt pat s = none := by
  intro pat
  induction pat with
  | nil => intro s h; simp [startsWith] at h
  | cons p ps ih =>
    intro s h
    cases s with
    | nil => rfl
    | cons c cs =>
      simp only [startsWith] at h
      cases hpc : (p == c) with
      | false => simp [tryAt, hpc]
      | true =>
        rw [hpc, Bool.true_and] at h
        simp [tryAt, hpc, ih h]

theorem searchTok_none_of_hasSub_false {pat : List Char} :
    ∀ {s : List Char}, hasSub pat s = false → searchTok pat s = none := by
  intro s
  induction s with
  | nil =>
    intro h
    cases pat with
    | nil => simp [hasSub] at h
    | cons p ps => rfl
  | cons c cs ih =>
    intro h
    simp only [hasSub, Bool.or_eq_false_iff] at h
    obtain ⟨h1, h2⟩ := h
    simp only [searchTok, tryAt_none_of_startsWith_false h1]
    exact ih h2

theorem ite_bool_true {α : Sort _} {b : Bool} {x y : α} (h : b = true) :
    (if b then x else y) = x := by rw [h]; rfl

theorem ite_bool_false {α : Sort _} {b : Bool} {x y : α} (h : b = false) :
    (if b then x else y) = y := by rw [h]; rfl

theorem extract_of_branch1 {url t : List Char}
    (h : (if hasSub "youtu.be".data url then searchTok "youtu.be/".data url else none) =
      some t) :
    extract_video_id url = some t := by
  unfold extract_video_id
  rw [h]

theorem extract_of_branch2 {url t : List Char}
    (hb1 : (if hasSub "youtu.be".data url then searchTok "youtu.be/".data url else none) =
      none)
    (h : (if hasSub "youtube.com".data url && hasSub "v=".data url then
        searchTok "v=".data url else none) = some t) :
    extract_video_id url = some t := by
  unfold extract_video_id
  rw [hb1, h]

theorem extract_of_branch3 {url t : List Char}
    (hb1 : (if hasSub "youtu.be".data url then searchTok "youtu.be/".data url else none) =
      none)
    (hb2 : (if hasSub "youtube.com".data url && hasSub "v=".data url then
        searchTok "v=".data url else none) = none)
    (h : (if hasSub "embed/".data url then searchTok "embed/".data url else none) = some t) :
    extract_video_id url = some t := by
  unfold extract_video_id
  rw [hb1, hb2, h]

theorem extract_of_branch4 {url : List Char}
    (hb1 : (if hasSub "youtu.be".data url then searchTok "youtu.be/".data url else none) =
      none)
    (hb2 : (if hasSub "youtube.com".data url && hasSub "v=".data url then
        searchTok "v=".data url else none) = none)
    (hb3 : (if hasSub "embed/".data url then searchTok "embed/".data url else none) = none) :
    extract_video_id url = (if bareMatch url then some url else none) := by
  unfold extract_video_id
  rw [hb1, hb2, hb3]

theorem extract_short {id : List Char} (h1 : id.length = 11) (h2 : id.all isIdChar = true) :
    extract_video_id ("https://youtu.be/".data ++ id) = some id := by
  have hguard : hasSub "youtu.be".data ("https://youtu.be/".data ++ id) = true := rfl
  have hskip : searchTok "youtu.be/".data ("https://youtu.be/".data ++ id) =
      searchTok "youtu.be/".data ("youtu.be/".data ++ id) := rfl
  have hfind : searchTok "youtu.be/".data ("youtu.be/".data ++ id) = some id :=
    searchTok_hit ((tryAt_append_self _ _).trans (takeTok_of_valid h1 h2))
  exact extract_of_branch1 ((ite_bool_true hguard).trans (hskip.trans hfind))

theorem extract_watch {id : List Char} (h1 : id.length = 11) (h2 : id.all isIdChar = true) :
    extract_video_id ("https://www.youtube.com/watch?v=".data ++ id) = some id := by
  have hg1 : hasSub "youtu.be".data ("https://www.youtube.com/watch?v=".data ++ id) = false :=
    (show hasSub "youtu.be".data ("https://www.youtube.com/watch?v=".data ++ id) =
        hasSub "youtu.be".data id from rfl).trans (hasSub_false_of_all (by decide) h2)
  have hguard2 : (hasSub "youtube.com".data ("https://www.youtube.com/watch?v=".data ++ id)
      && hasSub "v=".data ("https://www.youtube.com/watch?v=".data ++ id)) = true := rfl
  have hskip : searchTok "v=".data ("https://www.youtube.com/watch?v=".data ++ id) =
      searchTok "v=".data ("v=".data ++ id) := rfl
  have hfind : searchTok "v=".data ("v=".data ++ id) = some id :=
    searchTok_hit ((tryAt_append_self _ _).trans (takeTok_of_valid h1 h2))
  exact extract_of_branch2 (ite_bool_false hg1)
    ((ite_bool_true hguard2).trans (hskip.trans hfind))

theorem extract_embed {id : List Char} (h1 : id.length = 11) (h2 : id.all isIdChar = true) :
    extract_video_id ("https://www.youtube.com/embed/".data ++ id) = some id := by
  have hg1 : hasSub "youtu.be".data ("https://www.youtube.com/embed/".data ++ id) = false :=
    (show hasSub "youtu.be".data ("https://www.youtube.com/embed/".data ++ id) =
        hasSub "youtu.be".data id from rfl).trans (hasSub_false_of_all (by decide) h2)
  have hv : hasSub "v=".data ("https://www.youtube.com/embed/".data ++ id) = false :=
    (show hasSub "v=".data ("https://www.youtube.com/embed/".data ++ id) =
        hasSub "v=".data id from rfl).trans (hasSub_false_of_all (by decide) h2)
  have hguard2 : (hasSub "youtube.com".data ("https://www.youtube.com/embed/".data ++ id)
      && hasSub "v=".data ("https://www.youtube.com/embed/".data ++ id)) = false := by
    rw [hv, Bool.and_false]
  have hguard3 : hasSub "embed/".data ("https://www.youtube.com/embed/".data ++ id) =
      true := rfl
  have hskip : searchTok "embed/".data ("https://www.youtube.com/embed/".data ++ id) =
      searchTok "embed/".data ("embed/".data ++ id) := rfl
  have hfind : searchTok "embed/".data ("embed/".data ++ id) = some id :=
    searchTok_hit ((tryAt_append_self _ _).trans (takeTok_of_valid h1 h2))
  exact extract_of_branch3 (ite_bool_false hg1) (ite_bool_false hguard2)
    ((ite_bool_true hguard3).trans (hskip.trans hfind))

theorem extract_bare {id : List Char} (h1 : id.length = 11) (h2 : id.all isIdChar = true) :
    extract_video_id id = some id := by
  have hg1 : hasSub "youtu.be".data id = false := hasSub_false_of_all (by decide) h2
  have hytc : hasSub "youtube.com".data id = false := hasSub_false_of_all (by decide) h2
  have hemb : hasSub "embed/".data id = false := hasSub_false_of_all (by decide) h2
  have hbare : bareMatch id = true := by
    simp [bareMatch, h1, h2]
  have hguard2 : (hasSub "youtube.com".data id && hasSub "v=".data id) = false := by
    rw [hytc, Bool.false_and]
  exact (extract_of_branch4 (ite_bool_false hg1) (ite_bool_false hguard2)
    (ite_bool_false hemb)).trans (ite_bool_true hbare)

theorem extract_none {url : List Char}
    (h1 : hasSub "youtu.be/".data url = false)
    (h2 : hasSub "youtube.com".data url = false ∨ hasSub "v=".data url = false)
    (h3 : hasSub "embed/".data url = false)
    (h4 : ¬(url.length = 11 ∧ url.all isIdChar = true))
    (h5 : ¬(url.length = 12 ∧ (url.take 11).all isIdChar = true ∧
        url.getLast? = some '\n')) :
    extract_video_id url = none := by
  have hb1 : (if hasSub "youtu.be".data url then searchTok "youtu.be/".data url else none) =
      none := by
    by_cases hg : hasSub "youtu.be".data url = true
    · rw [ite_bool_true hg]
      exact searchTok_none_of_hasSub_false h1
    · rw [ite_bool_false (Bool.eq_false_iff.mpr hg)]
  have hb2 : (hasSub "youtube.com".data url && hasSub "v=".data url) = false := by
    rcases h2 with h | h
    · rw [h, Bool.false_and]
    · rw [h, Bool.and_false]
  have hb4 : bareMatch url = false := by
    rw [Bool.eq_false_iff]
    intro hb
    simp only [bareMatch, Bool.or_eq_true, Bool.and_eq_true, beq_iff_eq] at hb
    exact hb.elim (fun hl => h4 ⟨hl.1, hl.2⟩) (fun hr => h5 ⟨hr.1.1, hr.1.2, hr.2⟩)
  exact (extract_of_branch4 hb1 (ite_bool_false hb2) (ite_bool_false h3)).trans
    (ite_bool_false hb4)

/-- C3 (amended): for every valid 11-character token, each of the four
supported URL shapes (youtu.be short link, youtube.com watch URL with
v=, embed URL, bare token) yields exactly that token; and every string
that contains none of the URL markers (`youtu.be/`, `youtube.com`
together with `v=`, `embed/`), is not a bare 11-character token, and is
not an 11-character token followed by one trailing newline, yields
null.  (The trailing-newline exception is forced by Python's `$`
matching before a final newline: such a string is returned whole,
newline included.) -/
theorem c3_extract_video_id (id url : List Char) :
    (id.length = 11 → id.all isIdChar = true →
      extract_video_id ("https://youtu.be/".data ++ id) = some id
      ∧ extract_video_id ("https://www.youtube.com/watch?v=".data ++ id) = some id
      ∧ extract_video_id ("https://www.youtube.com/embed/".data ++ id) = some id
      ∧ extract_video_id id = some id)
    ∧ (hasSub "youtu.be/".data url = false →
      (hasSub "youtube.com".data url = false ∨ hasSub "v=".data url = false) →
      hasSub "embed/".data url = false →
      ¬(url.length = 11 ∧ url.all isIdChar = true) →
      ¬(url.length = 12 ∧ (url.take 11).all isIdChar = true ∧
          url.getLast? = some '\n') →
      extract_video_id url = none) :=
  ⟨fun h1 h2 => ⟨extract_short h1 h2, extract_watch h1 h2, extract_embed h1 h2,
    extract_bare h1 h2⟩,
   fun a b c d e => extract_none a b c d e⟩

theorem c3_extract_video_id_witness :
    extract_video_id ("https://youtu.be/".data ++ "dQw4w9WgXcQ".data) =
      some "dQw4w9WgXcQ".data
    ∧ extract_video_id "not a url".data = none := by
  have T := c3_extract_video_id "dQw4w9WgXcQ".data "not a url".data
  exact ⟨(T.1 (by decide) (by decide)).1,
    T.2 (by decide) (Or.inl (by decide)) (by decide) (by decide) (by decide)⟩

/-- C3 counterexample: the 12-character string `"abcdefghijk\n"`
matches none of the four supported URL shapes — it contains none of the
URL markers and is not an 11-character token — yet `extract_video_id`
returns it (whole, trailing newline included) instead of null, because
Python's `$` in `re.match(r"^[0-9A-Za-z_-]{11}$", url)` also matches
just before a trailing newline and the function then returns `url`
unchanged. -/
theorem c3_counterexample :
    hasSub "youtu.be/".data "abcdefghijk\n".data = false
    ∧ hasSub "youtube.com".data "abcdefghijk\n".data = false
    ∧ hasSub "v=".data "abcdefghijk\n".data = false
    ∧ hasSub "embed/".data "abcdefghijk\n".data = false
    ∧ ¬("abcdefghijk\n".data.length = 11 ∧ "abcdefghijk\n".data.all isIdChar = true)
    ∧ extract_video_id "abcdefghijk\n".data = some "abcdefghijk\n".data := by
  refine ⟨by decide, by decide, by decide, by decide, by decide, by decide⟩

theorem collapseWs_no_newline : ∀ (s : List Char), '\n' ∉ collapseWs s := by
  intro s
  induction s using collapseWs.induct with
  | case1 => simp [collapseWs]
  | case2 c cs hc ih =>
    simp only [collapseWs, hc, if_true]
    intro hmem
    rcases List.mem_cons.mp hmem with h | h
    · cases h
    · exact ih h
  | case3 c cs hc ih =>
    simp only [collapseWs, hc, if_false]
    intro hmem
    rcases List.mem_cons.mp hmem with h | h
    · subst h; simp [isSpaceChar] at hc
    · exact ih h

theorem findClose_sublist {cl : Char} :
    ∀ {cs rest : List Char}, findClose cl cs = some rest → rest <+ cs := by
  intro cs
  induction cs with
  | nil => intro rest h; simp [findClose] at h
  | cons x xs ih =>
    intro rest h
    simp only [findClose] at h
    split at h
    · cases h; exact List.sublist_cons_self _ _
    · split at h
      · cases h
      · exact (ih h).trans (List.sublist_cons_self _ _)

theorem findClose_none_not_mem {cl : Char} :
    ∀ {cs : List Char}, '\n' ∉ cs → findClose cl cs = none → cl ∉ cs := by
  intro cs
  induction cs with
  | nil => intro _ _ h; cases h
  | cons x xs ih =>
    intro hnl h hmem
    simp only [findClose] at h
    split at h
    · cases h
    · split at h
      · rename_i hx
        exact hnl (hx ▸ List.mem_cons_self _ _)
      · rename_i hx _
        rcases List.mem_cons.mp hmem with h' | h'
        · exact hx h'.symm
        · exact ih (fun hm => hnl (List.mem_cons_of_mem _ hm)) h h'

theorem removeDelim_sublist (o c : Char) : ∀ (s : List Char), removeDelim o c s <+ s := by
  intro s
  induction s using removeDelim.induct o c with
  | case1 => simp [removeDelim]
  | case2 cs rest hfc ih =>
    simp only [removeDelim, eq_self_iff_true, if_true]
    split
    · rename_i r heq
      rw [hfc] at heq
      injection heq with he
      subst he
      exact (ih.trans (findClose_sublist hfc)).trans (List.sublist_cons_self _ _)
    · rename_i heq
      rw [hfc] at heq
      cases heq
  | case3 cs hfc ih =>
    simp only [removeDelim, eq_self_iff_true, if_true]
    split
    · rename_i r heq
      rw [hfc] at heq
      cases heq
    · exact ih.cons₂ _
  | case4 ch cs hch ih =>
    simp only [removeDelim, if_neg hch]
    exact ih.cons₂ _

theorem hasPair_true_iff {o c : Char} :
    ∀ {l : List Char}, hasPair o c l = true ↔ [o, c] <+ l := by
  intro l
  induction l with
  | nil => simp [hasPair]
  | cons x xs ih =>
    simp only [hasPair, Bool.or_eq_true, Bool.and_eq_true, decide_eq_true_eq]
    constructor
    · rintro (⟨rfl, hc⟩ | h)
      · exact (List.singleton_sublist.mpr hc).cons₂ _
      · exact (ih.mp h).cons _
    · intro h
      cases h with
      | cons _ h' => exact Or.inr (ih.mpr h')
      | cons₂ _ h' => exact Or.inl ⟨rfl, List.singleton_sublist.mp h'⟩

theorem hasPair_false_mono {o c : Char} {l₁ l₂ : List Char} (hs : l₁ <+ l₂)
    (h : hasPair o c l₂ = false) : hasPair o c l₁ = false := by
  cases hp : hasPair o c l₁ with
  | false => rfl
  | true =>
    have := hasPair_true_iff.mpr ((hasPair_true_iff.mp hp).trans hs)
    rw [h] at this
    cases this

theorem hasPair_false_of_not_mem {o c : Char} {l : List Char} (h : c ∉ l) :
    hasPair o c l = false := by
  cases hp : hasPair o c l with
  | false => rfl
  | true =>
    exact absurd (List.Sublist.mem (by simp) (hasPair_true_iff.mp hp)) h

theorem removeDelim_hasPair (o c : Char) :
    ∀ (s : List Char), '\n' ∉ s → hasPair o c (removeDelim o c s) = false := by
  intro s
  induction s using removeDelim.induct o c with
  | case1 => intro _; simp [removeDelim, hasPair]
  | case2 cs rest hfc ih =>
    intro hnl
    simp only [removeDelim, eq_self_iff_true, if_true]
    split
    · rename_i r heq
      rw [hfc] at heq
      injection heq with he
      subst he
      exact ih fun hm =>
        hnl (List.mem_cons_of_mem _ (Sublist.mem hm (findClose_sublist hfc)))
    · rename_i heq
      rw [hfc] at heq
      cases heq
  | case3 cs hfc ih =>
    intro hnl
    simp only [removeDelim, eq_self_iff_true, if_true]
    split
    · rename_i r heq
      rw [hfc] at heq
      cases heq
    · have hnlcs : '\n' ∉ cs := fun hm => hnl (List.mem_cons_of_mem _ hm)
      have hcnot : c ∉ cs := findClose_none_not_mem hnlcs hfc
      have hcnot2 : c ∉ removeDelim o c cs := fun hm =>
        hcnot (Sublist.mem hm (removeDelim_sublist o c cs))
      simp only [hasPair]
      rw [decide_eq_false hcnot2, Bool.and_false, Bool.false_or]
      exact hasPair_false_of_not_mem hcnot2
  | case4 ch cs hch ih =>
    intro hnl
    simp only [removeDelim, if_neg hch]
    simp only [hasPair]
    rw [decide_eq_false hch, Bool.false_and, Bool.false_or]
    exact ih fun hm => hnl (List.mem_cons_of_mem _ hm)

theorem replaceNewlines_of_no_newline : ∀ {s : List Char}, '\n' ∉ s →
    replaceNewlines s = s := by
  intro s
  induction s with
  | nil => intro _; rfl
  | cons x xs ih =>
    intro h
    have hx : ¬ x = '\n' := fun he => h (he ▸ List.mem_cons_self _ _)
    have hxs := ih fun hm => h (List.mem_cons_of_mem _ hm)
    simp only [replaceNewlines, List.map_cons] at hxs ⊢
    rw [if_neg hx, hxs]

theorem dropWhile_head?_false {p : Char → Bool} {l : List Char} {x : Char}
    (h : (l.dropWhile p).head? = some x) : p x = false := by
  have H := List.head?_dropWhile_not p l
  rw [h] at H
  exact H

theorem trim_sublist (l : List Char) : trim l <+ l := by
  unfold trim
  have h1 : ((l.dropWhile isSpaceChar).reverse.dropWhile isSpaceChar) <+
      (l.dropWhile isSpaceChar).reverse := List.dropWhile_sublist _
  have h2 := h1.reverse
  rw [List.reverse_reverse] at h2
  exact h2.trans (List.dropWhile_sublist _)

theorem trim_head_not_space {l : List Char} {ch : Char}
    (h : (trim l).head? = some ch) : isSpaceChar ch = false := by
  unfold trim at h
  rw [List.head?_reverse] at h
  obtain ⟨pre, hpre⟩ :=
    List.dropWhile_suffix (l := (l.dropWhile isSpaceChar).reverse) isSpaceChar
  have hm : ((l.dropWhile isSpaceChar).reverse).getLast? = some ch := by
    rw [← hpre, List.getLast?_append, h]
    rfl
  rw [List.getLast?_reverse] at hm
  exact dropWhile_head?_false hm

theorem trim_getLast_not_space {l : List Char} {ch : Char}
    (h : (trim l).getLast? = some ch) : isSpaceChar ch = false := by
  unfold trim at h
  rw [List.getLast?_reverse] at h
  exact dropWhile_head?_false h

/-- C9 (amended): for every input string, the output of
`clean_transcript` contains no complete square-bracket or parenthesis
annotation (no opening bracket or parenthesis with a matching closer
anywhere after it) and has no leading or trailing whitespace.  The
original claim's remaining guarantee — no run of two or more
consecutive whitespace characters — does not hold, because whitespace
runs are collapsed before annotations are removed, so deleting an
annotation can leave the two single spaces around it adjacent. -/
theorem c9_clean_transcript (s : List Char) :
    hasPair '[' ']' (clean_transcript s) = false
    ∧ hasPair '(' ')' (clean_transcript s) = false
    ∧ (∀ ch, (clean_transcript s).head? = some ch → isSpaceChar ch = false)
    ∧ (∀ ch, (clean_transcript s).getLast? = some ch → isSpaceChar ch = false) := by
  have h0 : '\n' ∉ collapseWs s := collapseWs_no_newline s
  have hsub1 : removeDelim '[' ']' (collapseWs s) <+ collapseWs s :=
    removeDelim_sublist _ _ _
  have hnl1 : '\n' ∉ removeDelim '[' ']' (collapseWs s) := fun hm =>
    h0 (Sublist.mem hm hsub1)
  have hB : hasPair '[' ']' (removeDelim '[' ']' (collapseWs s)) = false :=
    removeDelim_hasPair _ _ _ h0
  have hsub2 : removeDelim '(' ')' (removeDelim '[' ']' (collapseWs s)) <+
      removeDelim '[' ']' (collapseWs s) := removeDelim_sublist _ _ _
  have hnl2 : '\n' ∉ removeDelim '(' ')' (removeDelim '[' ']' (collapseWs s)) := fun hm =>
    hnl1 (Sublist.mem hm hsub2)
  have hP : hasPair '(' ')' (removeDelim '(' ')' (removeDelim '[' ']' (collapseWs s))) =
      false := removeDelim_hasPair _ _ _ hnl1
  have hB2 : hasPair '[' ']' (removeDelim '(' ')' (removeDelim '[' ']' (collapseWs s))) =
      false := hasPair_false_mono hsub2 hB
  have hct : clean_transcript s =
      trim (removeDelim '(' ')' (removeDelim '[' ']' (collapseWs s))) := by
    unfold clean_transcript
    rw [replaceNewlines_of_no_newline hnl2]
  have hsubT : trim (removeDelim '(' ')' (removeDelim '[' ']' (collapseWs s))) <+
      removeDelim '(' ')' (removeDelim '[' ']' (collapseWs s)) := trim_sublist _
  refine ⟨?_, ?_, ?_, ?_⟩
  · rw [hct]
    exact hasPair_false_mono hsubT hB2
  · rw [hct]
    exact hasPair_false_mono hsubT hP
  · intro ch hch
    rw [hct] at hch
    exact trim_head_not_space hch
  · intro ch hch
    rw [hct] at hch
    exact trim_getLast_not_space hch

theorem c9_clean_transcript_witness :
    clean_transcript " [Music] hello (laughs) world ".data = "hello  world".data
    ∧ isSpaceChar 'h' = false
    ∧ isSpaceChar 'd' = false := by
  have hval : clean_transcript " [Music] hello (laughs) world ".data =
      "hello  world".data := by
    simp [clean_transcript, collapseWs, removeDelim, findClose, replaceNewlines, trim,
      isSpaceChar, List.dropWhile]
  have T := c9_clean_transcript " [Music] hello (laughs) world ".data
  refine ⟨hval, T.2.2.1 'h' (by rw [hval]; rfl), T.2.2.2 'd' (by rw [hval]; rfl)⟩

/-- C9 counterexample: on input `"a [x] b"` the code collapses
whitespace first and removes the bracket annotation afterwards, so the
two single spaces around the annotation become adjacent: the output is
`"a  b"`, which contains a run of two consecutive whitespace
characters, contradicting the claim. -/
theorem c9_counterexample :
    clean_transcript "a [x] b".data = "a  b".data
    ∧ hasSub "  ".data "a  b".data = true := by
  constructor
  · simp [clean_transcript, collapseWs, removeDelim, findClose, replaceNewlines, trim,
      isSpaceChar, List.dropWhile]
  · decide

end YTF
